import Mathlib

/-!
Verification of the BAUx2 interpreter (Rust sources `src/interpreter.rs` and
`src/main.rs`) against its natural-language specification.

The embedding is shallow: Rust `f64` numbers are modelled as rationals (`ℚ`);
every numeric literal appearing in the checked claims has an exact `f64`
representation, and no claim depends on floating-point rounding, infinities
or NaN.  Rust `HashMap<String, Value>` is modelled as an association list with
replace-on-insert (only `get`/`insert` are used by the source, so iteration
order is irrelevant).  The output buffer (`String` mutated by `push_str`, or
stdout written by `println!`) is modelled as the list of newline-terminated
records appended during the run; every `push_str`/`println!` in the source
emits exactly one such record.  Rust panics (slice-index panics and explicit
`panic!`) are modelled as an explicit `crash` outcome.
-/

/-- Runtime values: the `Value` enum shared by both dialects
(`Bool`, `Str`, `Num(f64)`). -/
inductive Value
  | bool (b : Bool)
  | str (s : String)
  | num (q : ℚ)
  deriving DecidableEq

/-- The variable environment: `HashMap<String, Value>` as an association list. -/
abbrev Vars := List (String × Value)

/-- `vars.get(name)` on the association list. -/
def lookupVar : Vars → String → Option Value
  | [], _ => none
  | (k, v) :: rest, name => if k = name then some v else lookupVar rest name

/-- `vars.insert(name, value)`: replace an existing binding in place,
otherwise append. -/
def insertVar : Vars → String → Value → Vars
  | [], name, v => [(name, v)]
  | (k, w) :: rest, name, v =>
    if k = name then (k, v) :: rest else (k, w) :: insertVar rest name v

/-- First character test (Rust `str::starts_with(char)`). -/
def startsCh (s : String) (c : Char) : Bool := s.data.head? = some c

/-- Last character test (Rust `str::ends_with(char)`). -/
def endsCh (s : String) (c : Char) : Bool := s.data.getLast? = some c

/-- Character length of a token (all tokens in the checked programs are
ASCII, so this coincides with Rust's byte length). -/
def strLen (s : String) : Nat := s.data.length

/-- Rust slice `&s[1..s.len()-1]`: drop the first and last character.
Callers must check `2 ≤ strLen s` first; the interpreters model the
out-of-bounds slice of a one-character token as a crash. -/
def stripEnds (s : String) : String := String.mk (s.data.drop 1).dropLast

/-- Rust slice `&s[1..]`: drop the first character. -/
def dropFirst (s : String) : String := String.mk (s.data.drop 1)

/-- Decimal digits to a natural number. -/
def digitsToNat (cs : List Char) : Nat :=
  cs.foldl (fun a c => a * 10 + (c.toNat - '0'.toNat)) 0

/-- Integer rendering, as Rust `i64`/integral-`f64` `Display`. -/
def intStr (i : Int) : String :=
  if i < 0 then "-" ++ Nat.repr i.natAbs else Nat.repr i.natAbs

/-- Mantissa of a decimal literal: `digits`, `digits.`, `digits.digits` or
`.digits` (the grammar of Rust `f64::from_str` restricted to finite
decimals; `inf`/`NaN` are outside the rational model and no claim uses
them). -/
def parseMantissa (cs : List Char) : Option ℚ :=
  let ip := cs.takeWhile (fun c => c ≠ '.')
  let rest := cs.dropWhile (fun c => c ≠ '.')
  match rest with
  | [] =>
    if !ip.isEmpty && ip.all Char.isDigit then some (digitsToNat ip : ℚ) else none
  | _ :: fp =>
    if (!ip.isEmpty || !fp.isEmpty) && ip.all Char.isDigit && fp.all Char.isDigit then
      some ((digitsToNat ip : ℚ) + (digitsToNat fp : ℚ) / (10 : ℚ) ^ fp.length)
    else none

/-- Exponent part after `e`/`E`: optional sign and digits. -/
def parseExpPart (cs : List Char) : Option Int :=
  let digs (ds : List Char) : Option Int :=
    if !ds.isEmpty && ds.all Char.isDigit then some (digitsToNat ds : Int) else none
  match cs with
  | [] => none
  | c :: rest =>
    if c = '+' then digs rest
    else if c = '-' then (digs rest).map (fun n => -n)
    else digs (c :: rest)

/-- Scale a mantissa by a decimal exponent. -/
def applyExp (q : ℚ) (e : Int) : ℚ :=
  if 0 ≤ e then q * (10 : ℚ) ^ e.toNat else q / (10 : ℚ) ^ (-e).toNat

/-- Unsigned decimal literal with optional exponent. -/
def parseUnsigned (cs : List Char) : Option ℚ :=
  let m := cs.takeWhile (fun c => !(c = 'e' || c = 'E'))
  let ex := cs.dropWhile (fun c => !(c = 'e' || c = 'E'))
  match ex with
  | [] => parseMantissa m
  | _ :: exTail =>
    match parseMantissa m, parseExpPart exTail with
    | some mv, some ev => some (applyExp mv ev)
    | _, _ => none

/-- Rust `str::parse::<f64>()` on finite decimal literals, as an exact
rational. -/
def parseNum (s : String) : Option ℚ :=
  match s.data with
  | [] => none
  | c :: cs =>
    if c = '+' then parseUnsigned cs
    else if c = '-' then (parseUnsigned cs).map (fun q => -q)
    else parseUnsigned (c :: cs)

/-- Rust `str::parse::<i32>()`: optional sign, digits, `i32` range check. -/
def parseI32 (s : String) : Option Int :=
  let digs (ds : List Char) : Option Int :=
    if !ds.isEmpty && ds.all Char.isDigit then some (digitsToNat ds : Int) else none
  let raw : Option Int :=
    match s.data with
    | [] => none
    | c :: rest =>
      if c = '+' then digs rest
      else if c = '-' then (digs rest).map (fun n => -n)
      else digs (c :: rest)
  match raw with
  | some v => if -2147483648 ≤ v ∧ v ≤ 2147483647 then some v else none
  | none => none

/-- Rust `q as i64`: truncation toward zero, saturating at the `i64` range. -/
def f64ToI64 (q : ℚ) : Int :=
  max (-9223372036854775808) (min 9223372036854775807 (q.num.tdiv (q.den : Int)))

/-- Rust `q as i32`: truncation toward zero, saturating at the `i32` range. -/
def f64ToI32 (q : ℚ) : Int :=
  max (-2147483648) (min 2147483647 (q.num.tdiv (q.den : Int)))

/-- Decimal rendering of a non-integral rational whose denominator divides a
power of ten; Rust prints the shortest decimal of the `f64`, which coincides
on such values (values outside this set need float rounding and are outside
the rational model; no checked claim prints one). -/
def renderDecAux (q : ℚ) : Nat → Option String
  | 0 => none
  | k + 1 =>
    match renderDecAux q k with
    | some s => some s
    | none =>
      if (q * (10 : ℚ) ^ (k + 1)).den = 1 then
        let sgn := if q < 0 then "-" else ""
        let scaled := (q * (10 : ℚ) ^ (k + 1)).num.natAbs
        let ipart := scaled / 10 ^ (k + 1)
        let fpart := scaled % 10 ^ (k + 1)
        let fdigits := Nat.repr fpart
        let pad := String.mk (List.replicate ((k + 1) - fdigits.length) '0')
        some (sgn ++ Nat.repr ipart ++ "." ++ pad ++ fdigits)
      else none

/-- Rust `format!("{}", n)` for an `f64` holding the modelled rational. -/
def renderNum (q : ℚ) : String :=
  if q.den = 1 then intStr q.num
  else match renderDecAux q 40 with
    | some s => s
    | none => intStr q.num ++ "/" ++ Nat.repr q.den

/-- Textual rendering of a value as printed by `BAU` (`format!("{}", _)`). -/
def renderValue : Value → String
  | .str s => s
  | .bool b => cond b "true" "false"
  | .num q => renderNum q

/-- Accumulating splitter for `split_whitespace`: empty pieces are skipped. -/
def splitWsAux : List Char → List Char → List String
  | [], cur => if cur.isEmpty then [] else [String.mk cur.reverse]
  | c :: rest, cur =>
    if c.isWhitespace then
      if cur.isEmpty then splitWsAux rest []
      else String.mk cur.reverse :: splitWsAux rest []
    else splitWsAux rest (c :: cur)

/-- Rust `expr.trim().split_whitespace()`. -/
def splitWs (s : String) : List String := splitWsAux s.data []

/-- Splitter for Rust `str::split("..")`: non-overlapping, left to right,
keeping empty pieces. -/
def splitDotsAux : List Char → List Char → List String
  | '.' :: '.' :: rest, cur => String.mk cur.reverse :: splitDotsAux rest []
  | c :: rest, cur => splitDotsAux rest (c :: cur)
  | [], cur => [String.mk cur.reverse]

/-- Rust `tokens[pc].split("..")`. -/
def splitDots (s : String) : List String := splitDotsAux s.data []

/-- Rust `str::trim()`. -/
def trimChars (s : String) : String :=
  String.mk ((s.data.dropWhile Char.isWhitespace).reverse.dropWhile Char.isWhitespace).reverse

/-- Rust `expr.replace("counter", repl)`: non-overlapping, left to right
(specialised to the fixed pattern `counter` used by the loop body). -/
def replaceCounterAux (repl : List Char) : List Char → List Char
  | 'c' :: 'o' :: 'u' :: 'n' :: 't' :: 'e' :: 'r' :: rest => repl ++ replaceCounterAux repl rest
  | c :: rest => c :: replaceCounterAux repl rest
  | [] => []

/-- Rust `expr.replace("counter", repl)`. -/
def replaceCounter (s : String) (repl : String) : String :=
  String.mk (replaceCounterAux repl.data s.data)

instance : DecidableEq (Except String ℚ) := fun a b =>
  match a, b with
  | .ok x, .ok y => decidable_of_iff (x = y) (by simp)
  | .error e, .error f => decidable_of_iff (e = f) (by simp)
  | .ok _, .error _ => isFalse (by simp)
  | .error _, .ok _ => isFalse (by simp)

/-- Truncated division used by Rust `f64 % f64` (remainder has the sign of
the dividend); `x % 0.0` is NaN in Rust, outside the rational model, and is
mapped to `0` (no checked claim uses `%`). -/
def ratRem (l r : ℚ) : ℚ :=
  if r = 0 then 0 else l - r * ((l / r).num.tdiv ((l / r).den : Int) : ℚ)

/-- `evaluate_operand` from `src/interpreter.rs`: a bound variable
(number, or boolean coerced to 1.0/0.0), the boolean literals, or a numeric
literal. -/
def evaluateOperand (operand : String) (vars : Vars) : Except String ℚ :=
  match lookupVar vars operand with
  | some (.num n) => .ok n
  | some (.bool b) => .ok (if b then 1 else 0)
  | some _ => .error "[ERROR: InvalidValue]: Variable not found or invalid type"
  | none =>
    if operand = "FLUFFY" then .ok 1
    else if operand = "FUZZY" then .ok 0
    else match parseNum operand with
      | some n => .ok n
      | none => .error ("[ERROR: InvalidValue]: '" ++ operand ++ "' is an invalid number")

/-- `evaluate_arithmetic` from `src/interpreter.rs`. -/
def evaluateArithmetic (expr : String) (vars : Vars) : Except String ℚ :=
  let parts := splitWs expr
  if parts.length ≠ 3 then
    if parts.length = 1 then
      match parseNum (parts.getD 0 "") with
      | some n => .ok n
      | none => .error "[ERROR: InvalidValue]: Invalid number/expression"
    else .error "[ERROR: InvalidExpression]: Expecting 'value operator value'"
  else
    match evaluateOperand (parts.getD 0 "") vars with
    | .error e => .error e
    | .ok left =>
      match evaluateOperand (parts.getD 2 "") vars with
      | .error e => .error e
      | .ok right =>
        match parts.getD 1 "" with
        | "+" => .ok (left + right)
        | "-" => .ok (left - right)
        | "*" => .ok (left * right)
        | "/" => .ok (left / right)
        | "%" => .ok (ratRem left right)
        | _ => .error "[ERROR: InvalidOperator]: Operator is not supported"

/-- Lexer state of `run_interpreter` (`src/interpreter.rs`, lines 56-61). -/
structure LexSt where
  tokens : List String
  inQuote : Bool
  inArith : Bool
  current : String
  arith : String
  skipLine : Bool
  deriving DecidableEq

/-- One character of the `run_interpreter` lexer (the `for c in code.chars()`
loop, `src/interpreter.rs` lines 63-117); the match arms are mirrored in
source order. -/
def lexStep (st : LexSt) (c : Char) : LexSt :=
  if st.skipLine then
    if c = '\n' then { st with skipLine := false } else st
  else if c = ';' then { st with skipLine := true }
  else if c = '<' ∧ st.inQuote = false then
    { st with tokens := st.tokens ++ (if st.current = "" then [] else [st.current]),
              current := "", inArith := true }
  else if c = '>' ∧ st.inQuote = false ∧ st.inArith = true then
    { st with tokens := st.tokens ++
                (if st.arith = "" then [] else ["<" ++ trimChars st.arith ++ ">"]),
              arith := "", inArith := false }
  else if c = '"' then
    if st.inArith = false then
      if st.inQuote then
        { st with inQuote := false, tokens := st.tokens ++ [st.current.push '"'], current := "" }
      else { st with inQuote := true, current := st.current.push '"' }
    else { st with arith := st.arith.push c }
  else if c = '=' ∧ st.inQuote = false ∧ st.inArith = false then
    { st with tokens := st.tokens ++ (if st.current = "" then [] else [st.current]) ++ ["="],
              current := "" }
  else if c.isWhitespace ∧ st.inQuote = false ∧ st.inArith = false then
    { st with tokens := st.tokens ++ (if st.current = "" then [] else [st.current]),
              current := "" }
  else if st.inArith then { st with arith := st.arith.push c }
  else { st with current := st.current.push c }

/-- The full `run_interpreter` lexer, including the trailing flush of
`current_token` and `arithmetic_expr` (`src/interpreter.rs` lines 119-124). -/
def interpLex (code : String) : List String :=
  let st := code.data.foldl lexStep ⟨[], false, false, "", "", false⟩
  (st.tokens ++ (if st.current = "" then [] else [st.current])) ++
    (if st.arith = "" then [] else ["<" ++ trimChars st.arith ++ ">"])

/-- Lexer state of `main` (`src/main.rs`, lines 16-20). -/
structure MLexSt where
  tokens : List String
  inQuote : Bool
  current : String
  skipLine : Bool
  deriving DecidableEq

/-- One character of the `main` lexer (`src/main.rs` lines 21-47). -/
def mainLexStep (st : MLexSt) (c : Char) : MLexSt :=
  if st.skipLine then
    if c = '\n' then { st with skipLine := false } else st
  else if c = ';' then { st with skipLine := true }
  else if c = '"' then
    if st.inQuote then
      { st with inQuote := false, tokens := st.tokens ++ [st.current.push '"'], current := "" }
    else { st with inQuote := true, current := st.current.push '"' }
  else if c.isWhitespace ∧ st.inQuote = false then
    { st with tokens := st.tokens ++ (if st.current = "" then [] else [st.current]),
              current := "" }
  else { st with current := st.current.push c }

/-- The full `main` lexer with its trailing flush (`src/main.rs` line 49). -/
def mainLex (code : String) : List String :=
  let st := code.data.foldl mainLexStep ⟨[], false, "", false⟩
  st.tokens ++ (if st.current = "" then [] else [st.current])

/-- Interpreter state of the `run_interpreter` dispatch loop: the immutable
token sequence, the program counter, the environment and the condition
stack (`src/interpreter.rs` lines 126-136).  `suppress_class_messages` is
omitted: `run_interpreter` sets it but has no statement that reads it. -/
structure IState where
  tokens : List String
  pc : Nat
  vars : Vars
  condStack : List Bool
  deriving DecidableEq

/-- Result of one dispatch step, carrying the records appended to the output
buffer: `next` continues the loop, `halt` is `break`, `crash` is a Rust
panic (an out-of-range string slice). -/
inductive IRes
  | next (s : IState) (d : List String)
  | halt (s : IState) (d : List String)
  | crash (s : IState) (d : List String)
  deriving DecidableEq

/-- `condition_stack.last().copied().unwrap_or(true)` -- both dialects gate
execution on the top of the condition stack only. -/
def shouldExec (stack : List Bool) : Bool := (stack.getLast?).getD true

/-- The condition stack of a step result (for invariants about the stack). -/
def stackOf : IRes → List Bool
  | .next s _ => s.condStack
  | .halt s _ => s.condStack
  | .crash s _ => s.condStack

/-- First index `>= i` holding token `t`, if any. -/
def findFrom (tokens : List String) (t : String) (i : Nat) : Option Nat :=
  ((tokens.drop i).findIdx? (fun x => x = t)).map (i + ·)

/-- The `WA` (declare) branch of `run_interpreter`
(`src/interpreter.rs` lines 139-226); entered when the leading token is
`WA` and `pc + 4 < tokens.len()`. -/
def waStep (s : IState) : IRes :=
  if shouldExec s.condStack then
    let varType := s.tokens.getD (s.pc + 1) ""
    let varName := s.tokens.getD (s.pc + 2) ""
    if s.tokens.getD (s.pc + 3) "" ≠ "=" then
      .halt s ["[ERROR: Syntax]: Expected '=' after variable name"]
    else
      let varValue := s.tokens.getD (s.pc + 4) ""
      let ins := fun (v : Value) =>
        IRes.next { s with vars := insertVar s.vars varName v, pc := s.pc + 5 } []
      if varType = "KIRA" then
        if startsCh varValue '"' ∧ endsCh varValue '"' then
          if 2 ≤ strLen varValue then ins (.str (stripEnds varValue)) else .crash s []
        else match lookupVar s.vars varValue with
          | some (.str t) => ins (.str t)
          | _ => .next { s with pc := s.pc + 4 }
              ["[ERROR: IncompatibleType]: KIRA does not support a nonstring"]
      else if varType = "BAULEAN" then
        if varValue = "FLUFFY" then ins (.bool true)
        else if varValue = "FUZZY" then ins (.bool false)
        else match lookupVar s.vars varValue with
          | some (.bool b) => ins (.bool b)
          | _ => .next { s with pc := s.pc + 4 }
              ["[ERROR: IncompatibleType]: BAULEAN requires FLUFFY/FUZZY or a declared BAULEAN-type variable"]
      else if varType = "MOE" then
        if startsCh varValue '<' ∧ endsCh varValue '>' then
          match evaluateArithmetic (stripEnds varValue) s.vars with
          | .ok n => ins (.num n)
          | .error e => .next { s with pc := s.pc + 4 } [e]
        else match parseNum varValue with
          | some n => ins (.num n)
          | none => match lookupVar s.vars varValue with
            | some (.num n) => ins (.num n)
            | _ => .next { s with pc := s.pc + 4 }
                ["[ERROR: InvalidValue]: Invalid number/arithmetic expression"]
      else .next { s with pc := s.pc + 4 } ["Unknown type: " ++ varType]
  else .next { s with pc := s.pc + 1 } []

/-- The `CO` (reassign) branch of `run_interpreter`
(`src/interpreter.rs` lines 228-321); entered when the leading token is
`CO` and `pc + 3 < tokens.len()`. -/
def coStep (s : IState) : IRes :=
  if shouldExec s.condStack then
    let varName := s.tokens.getD (s.pc + 1) ""
    if s.tokens.getD (s.pc + 2) "" ≠ "=" then
      .halt s ["[ERROR: Syntax]: Expected '=' in reassingment"]
    else
      let varValue := s.tokens.getD (s.pc + 3) ""
      let ins := fun (v : Value) =>
        IRes.next { s with vars := insertVar s.vars varName v, pc := s.pc + 4 } []
      match lookupVar s.vars varName with
      | none => .next { s with pc := s.pc + 3 }
          ["[ERROR: VanishValue]: Variable could not be found in scope: " ++ varName]
      | some (.str _) =>
        if startsCh varValue '"' ∧ endsCh varValue '"' then
          if 2 ≤ strLen varValue then ins (.str (stripEnds varValue)) else .crash s []
        else match lookupVar s.vars varValue with
          | some (.str t) => ins (.str t)
          | _ => .next { s with pc := s.pc + 3 }
              ["[ERROR: IncompatibleType]: CO requires matching type (KIRA)"]
      | some (.bool _) =>
        if varValue = "FLUFFY" then ins (.bool true)
        else if varValue = "FUZZY" then ins (.bool false)
        else match lookupVar s.vars varValue with
          | some (.bool b) => ins (.bool b)
          | _ => .next { s with pc := s.pc + 3 }
              ["[ERROR: IncompatibleType]: CO requires matching type (BAULEAN)"]
      | some (.num _) =>
        if startsCh varValue '<' ∧ endsCh varValue '>' then
          match evaluateArithmetic (stripEnds varValue) s.vars with
          | .ok n => ins (.num n)
          | .error e => .next { s with pc := s.pc + 3 } [e]
        else match parseNum varValue with
          | some n => ins (.num n)
          | none => match lookupVar s.vars varValue with
            | some (.num n) => ins (.num n)
            | _ => .next { s with pc := s.pc + 3 }
                ["[ERROR: IncompatibleType]: CO requires matching type (MOE)"]
  else .next { s with pc := s.pc + 1 } []

/-- The `BAU` (print) branch of `run_interpreter`
(`src/interpreter.rs` lines 323-342); entered when the leading token is
`BAU` and `pc + 1 < tokens.len()`.  A lone `"` token satisfies both quote
tests with length 1, and the slice `&token[1..0]` panics. -/
def bauStep (s : IState) : IRes :=
  let token := s.tokens.getD (s.pc + 1) ""
  if shouldExec s.condStack then
    if startsCh token '"' ∧ endsCh token '"' then
      if 2 ≤ strLen token then .next { s with pc := s.pc + 2 } [stripEnds token]
      else .crash s []
    else match lookupVar s.vars token with
      | some v => .next { s with pc := s.pc + 2 } [renderValue v]
      | none => .next { s with pc := s.pc + 2 }
          ["[ERROR: VanishValue]: Variable couldn't be found: " ++ token]
  else .next { s with pc := s.pc + 2 } []

/-- Result of walking a loop-body token range: environment plus appended
records; `bboom` is a panic inside the body. -/
inductive BodyRes
  | bok (vars : Vars) (d : List String)
  | bboom (vars : Vars) (d : List String)
  deriving DecidableEq

/-- Result of one statement inside a `PONDE` range-loop body:
continue at `ipc`, `break` out of this pass, or panic. -/
inductive InnerRes
  | inext (ipc : Nat) (vars : Vars) (d : List String)
  | ibreak (vars : Vars) (d : List String)
  | iboom (vars : Vars) (d : List String)
  deriving DecidableEq

/-- One statement of the `PONDE` range-loop body interpreter
(`src/interpreter.rs` lines 405-599), with `i` the current iteration
integer; mirrors the inner `match` with its `BAU`, `WA`, `CO` and
default arms. -/
def innerStep (tokens : List String) (bodyEnd : Nat) (i : Int) (ipc : Nat) (vars : Vars) :
    InnerRes :=
  let tok := tokens.getD ipc ""
  if tok = "BAU" ∧ ipc + 1 < bodyEnd then
    let t := tokens.getD (ipc + 1) ""
    if startsCh t '"' ∧ endsCh t '"' then
      if 2 ≤ strLen t then .inext (ipc + 2) vars [stripEnds t] else .iboom vars []
    else match lookupVar vars t with
      | some v => .inext (ipc + 2) vars [renderValue v]
      | none => .inext (ipc + 2) vars
          ["[ERROR: VanishValue]: Variable couldn't be found in scope: " ++ t]
  else if tok = "WA" ∧ ipc + 4 < bodyEnd then
    let varType := tokens.getD (ipc + 1) ""
    let varName := tokens.getD (ipc + 2) ""
    if tokens.getD (ipc + 3) "" ≠ "=" then
      .ibreak vars ["[ERROR: Syntax]: Expected '=' after variable name"]
    else
      let varValue := tokens.getD (ipc + 4) ""
      let ins := fun (v : Value) => InnerRes.inext (ipc + 5) (insertVar vars varName v) []
      if varType = "MOE" then
        if startsCh varValue '<' ∧ endsCh varValue '>' then
          let expr := replaceCounter (stripEnds varValue) (intStr i)
          match evaluateArithmetic expr vars with
          | .ok n => ins (.num n)
          | .error e => .inext (ipc + 4) vars [e]
        else match parseNum varValue with
          | some n => ins (.num n)
          | none => match lookupVar vars varValue with
            | some (.num n) => ins (.num n)
            | _ => .inext (ipc + 4) vars
                ["[ERROR: InvalidValue]: Invalid number/arithmetic expression"]
      else if varType = "KIRA" then
        if startsCh varValue '"' ∧ endsCh varValue '"' then
          if 2 ≤ strLen varValue then ins (.str (stripEnds varValue)) else .iboom vars []
        else match lookupVar vars varValue with
          | some (.str t) => ins (.str t)
          | _ => .inext (ipc + 4) vars
              ["[ERROR: IncompatibleType]: KIRA does not support a nonstring"]
      else if varType = "BAULEAN" then
        if varValue = "FLUFFY" then ins (.bool true)
        else if varValue = "FUZZY" then ins (.bool false)
        else match lookupVar vars varValue with
          | some (.bool b) => ins (.bool b)
          | _ => .inext (ipc + 4) vars
              ["[ERROR: IncompatibleType]: BAULEAN requires FLUFFY/FUZZY or boolean variable"]
      else .inext (ipc + 4) vars ["Unknown type: " ++ varType]
  else if tok = "CO" ∧ ipc + 3 < bodyEnd then
    let varName := tokens.getD (ipc + 1) ""
    if tokens.getD (ipc + 2) "" ≠ "=" then
      .ibreak vars ["[ERROR: Syntax]: Expected '=' in a reassignment"]
    else
      let varValue := tokens.getD (ipc + 3) ""
      match lookupVar vars varName with
      | none => .inext (ipc + 3) vars
          ["[ERROR: VanishValue]: Variable couldn't be found in scope: " ++ varName]
      | some (.num _) =>
        if startsCh varValue '<' ∧ endsCh varValue '>' then
          let expr := replaceCounter (stripEnds varValue) (intStr i)
          match evaluateArithmetic expr vars with
          | .ok n => .inext (ipc + 4) (insertVar vars varName (.num n)) []
          | .error e => .inext (ipc + 3) vars [e]
        else match parseNum varValue with
          | some n => .inext (ipc + 4) (insertVar vars varName (.num n)) []
          | none => match lookupVar vars varValue with
            | some (.num n) => .inext (ipc + 4) (insertVar vars varName (.num n)) []
            | _ => .inext (ipc + 3) vars
                ["[ERROR: IncompatibleType]: CO requires matching type (MOE)"]
      | some _ => .inext (ipc + 3) vars []
  else .inext (ipc + 1) vars []

/-- One pass over the loop body (`while inner_pc < loop_body_end`,
`src/interpreter.rs` lines 405-600).  The fuel argument only bounds the
recursion; every inner statement advances `inner_pc`, so fuel
`tokens.length + 1` never runs out. -/
def runBody (tokens : List String) (bodyEnd : Nat) (i : Int) :
    Nat → Nat → Vars → BodyRes
  | 0, _, vars => .bok vars []
  | fuel + 1, ipc, vars =>
    if ipc < bodyEnd then
      match innerStep tokens bodyEnd i ipc vars with
      | .inext ipc' vars' d =>
        match runBody tokens bodyEnd i fuel ipc' vars' with
        | .bok vars2 d2 => .bok vars2 (d ++ d2)
        | .bboom vars2 d2 => .bboom vars2 (d ++ d2)
      | .ibreak vars' d => .bok vars' d
      | .iboom vars' d => .bboom vars' d
    else .bok vars []

/-- `for i in start as i64..(end as i64) + 1`: the iteration integers.
`pondeStep` only calls this after ruling out `b = i64::MAX`, where the
Rust `+ 1` would overflow. -/
def intRange (a b : Int) : List Int :=
  (List.range (b + 1 - a).toNat).map (fun k => a + (k : Int))

/-- The iteration loop of the `PONDE` range form
(`src/interpreter.rs` lines 401-601): per iteration the induction variable
is rebound to the current integer, then one body pass runs. -/
def runIterations (tokens : List String) (bodyStart bodyEnd : Nat) (varName : String) :
    List Int → Vars → BodyRes
  | [], vars => .bok vars []
  | i :: rest, vars =>
    let vars1 := insertVar vars varName (.num (i : ℚ))
    match runBody tokens bodyEnd i (tokens.length + 1) bodyStart vars1 with
    | .bok vars2 d =>
      match runIterations tokens bodyStart bodyEnd varName rest vars2 with
      | .bok vars3 d2 => .bok vars3 (d ++ d2)
      | .bboom vars3 d2 => .bboom vars3 (d ++ d2)
    | .bboom vars2 d => .bboom vars2 d

/-- The `PONDE` (range-form counted loop) branch of `run_interpreter`
(`src/interpreter.rs` lines 344-610); entered when the leading token is
`PONDE` and `pc + 3 < tokens.len()`.  When the saturated end cast equals
`i64::MAX`, the Rust `(end as i64) + 1` in the `for` header overflows — a
panic in the debug build `cargo run` uses, modelled as a crash (a release
build would instead wrap to an empty range). -/
def pondeStep (s : IState) : IRes :=
  if shouldExec s.condStack then
    let varName := s.tokens.getD (s.pc + 1) ""
    let range := splitDots (s.tokens.getD (s.pc + 2) "")
    if range.length ≠ 2 then
      .next { s with pc := s.pc + 2 } ["[ERROR: Syntax]: Invalid range. Expected 'startInt..endInt'"]
    else match parseNum (range.getD 0 "") with
    | none => .next { s with pc := s.pc + 2 } ["[ERROR: InvalidRange]: Start value must be an integer"]
    | some startQ => match parseNum (range.getD 1 "") with
      | none => .next { s with pc := s.pc + 2 } ["[ERROR: InvalidRange]: End value must be an integer"]
      | some endQ =>
        if s.tokens.getD (s.pc + 3) "" ≠ "\x7b" then
          .next { s with pc := s.pc + 3 } ["[ERROR: Syntax]: Expected '\x7b' to begin the loop"]
        else
          let bodyStart := s.pc + 4
          let bodyEnd := (findFrom s.tokens "\x7d" bodyStart).getD s.tokens.length
          if bodyEnd = s.tokens.length then
            .next { s with pc := bodyStart } ["[ERROR: Syntax]: Could not find closing '\x7d' for loop"]
          else if f64ToI64 endQ = 9223372036854775807 then
            .crash { s with pc := bodyStart } []
          else
            match runIterations s.tokens bodyStart bodyEnd varName
                (intRange (f64ToI64 startQ) (f64ToI64 endQ)) s.vars with
            | .bok vars' d => .next { s with vars := vars', pc := bodyEnd + 1 } d
            | .bboom vars' d => .crash { s with vars := vars' } d
  else
    .next { s with pc := (findFrom s.tokens "\x7d" s.pc).getD s.tokens.length + 1 } []

/-- One iteration of the `run_interpreter` dispatch loop
(`src/interpreter.rs` lines 135-616): the four recognized statement forms
(each guarded by a minimum number of following tokens), and the silent
one-token fallthrough for everything else. -/
def interpStep (s : IState) : IRes :=
  let tok := s.tokens.getD s.pc ""
  if tok = "WA" ∧ s.pc + 4 < s.tokens.length then waStep s
  else if tok = "CO" ∧ s.pc + 3 < s.tokens.length then coStep s
  else if tok = "BAU" ∧ s.pc + 1 < s.tokens.length then bauStep s
  else if tok = "PONDE" ∧ s.pc + 3 < s.tokens.length then pondeStep s
  else .next { s with pc := s.pc + 1 } []

/-- Final status of a run: normal return, Rust panic, or fuel exhaustion
(never reached with fuel `tokens.length + 1`, since every step advances
the program counter). -/
inductive RunStatus
  | finished
  | crashed
  | fuelOut
  deriving DecidableEq

/-- The `while pc < tokens.len()` dispatch loop of `run_interpreter`. -/
def interpRun : Nat → IState → IState × List String × RunStatus
  | 0, s => (s, [], .fuelOut)
  | fuel + 1, s =>
    if s.pc < s.tokens.length then
      match interpStep s with
      | .next s' d => let r := interpRun fuel s'; (r.1, d ++ r.2.1, r.2.2)
      | .halt s' d => (s', d, .finished)
      | .crash s' d => (s', d, .crashed)
    else (s, [], .finished)

/-- `run_interpreter(code, variables, output)` up to the output buffer:
lex, honour the leading `CHIHUAHUA` flag, then dispatch.  Returns the final
state, the records appended to the buffer, and the run status. -/
def interpCore (code : String) (vars : Vars) : IState × List String × RunStatus :=
  let tokens := interpLex code
  let pc0 := if tokens.getD 0 "" = "CHIHUAHUA" then 1 else 0
  interpRun (tokens.length + 1) { tokens := tokens, pc := pc0, vars := vars, condStack := [] }

/-- Observable outcome of one `execute` call: final environment, final
output buffer, and whether the call returned normally. -/
structure RunOut where
  vars : Vars
  buffer : List String
  status : RunStatus
  deriving DecidableEq

/-- `run_interpreter(code, variables, output)`: the environment and the
output buffer are mutated in place; the buffer only ever grows by the
appended records. -/
def runInterpreter (code : String) (vars : Vars) (buffer : List String) : RunOut :=
  let r := interpCore code vars
  { vars := r.1.vars, buffer := buffer ++ r.2.1, status := r.2.2 }

/-- Interpreter state of the `main` dispatch loop (`src/main.rs` lines
51-59): token sequence, program counter, environment, condition stack, the
chain-scoped `block_executed` flag and the `suppress_class_messages` flag. -/
structure MState where
  tokens : List String
  pc : Nat
  vars : Vars
  condStack : List Bool
  blockExecuted : Bool
  suppress : Bool
  deriving DecidableEq

/-- Result of one `main` dispatch step: `next` continues, `halt` is the
`NOEH` `return`, `crash` is a `panic!` or slice panic (the panic message is
recorded; it goes to stderr, not to the modelled output). -/
inductive MRes
  | next (s : MState) (d : List String)
  | halt (s : MState) (d : List String)
  | crash (s : MState) (msg : String) (d : List String)
  deriving DecidableEq

/-- `evaluate_variable` from `src/main.rs`: only `$`-prefixed tokens resolve. -/
def evaluateVariable (token : String) (vars : Vars) : Option Value :=
  if startsCh token '$' then lookupVar vars (dropFirst token) else none

/-- One pass of the `main` `PONDE` body scan (`src/main.rs` lines 167-175):
walk from `loop_start` to `ENDPONDE` (or the end of the tokens), printing
the unconditionally quote-stripped successor of every `BAU`.  Returns the
printed records and `true`, or the records before a slice panic and
`false`. -/
def mainLoopPass (tokens : List String) : Nat → Nat → List String × Bool
  | 0, _ => ([], true)
  | fuel + 1, ipc =>
    if ipc < tokens.length ∧ tokens.getD ipc "" ≠ "ENDPONDE" then
      if tokens.getD ipc "" = "BAU" ∧ ipc + 1 < tokens.length then
        let t := tokens.getD (ipc + 1) ""
        if 2 ≤ strLen t then
          let r := mainLoopPass tokens fuel (ipc + 2)
          (stripEnds t :: r.1, r.2)
        else ([], false)
      else mainLoopPass tokens fuel (ipc + 1)
    else ([], true)

/-- `for _ in 0..iterations` around `mainLoopPass` (`src/main.rs` lines
166-176). -/
def mainLoopIters (tokens : List String) (loopStart : Nat) : Nat → List String × Bool
  | 0 => ([], true)
  | k + 1 =>
    let p := mainLoopPass tokens (tokens.length + 1) loopStart
    if p.2 then
      let r := mainLoopIters tokens loopStart k
      (p.1 ++ r.1, r.2)
    else (p.1, false)

/-- One iteration of the `main` dispatch loop (`src/main.rs` lines 61-278),
with the match arms in source order: `WA`, `BAU`, `CO`, `PONDE` (count
form), `FUWA`, `MOCO`, `PE`, `ROPE`, `RO`, `NOEH`, unknown token. -/
def mainStep (s : MState) : MRes :=
  let tok := s.tokens.getD s.pc ""
  let should := shouldExec s.condStack
  if tok = "WA" ∧ s.pc + 3 < s.tokens.length then
    if should then
      let varType := s.tokens.getD (s.pc + 1) ""
      let varName := s.tokens.getD (s.pc + 2) ""
      let varValue := s.tokens.getD (s.pc + 3) ""
      let ins := fun (v : Value) =>
        MRes.next { s with vars := insertVar s.vars varName v, pc := s.pc + 4 } []
      if varType = "KIRA" then
        if startsCh varValue '"' ∧ endsCh varValue '"' then
          if 2 ≤ strLen varValue then ins (.str (stripEnds varValue))
          else .crash s "slice out of range" []
        else .crash s "[ERROR: IncompatibleType]: KIRA requires quoted string" []
      else if varType = "BAULEAN" then
        if varValue = "FLUFFY" then ins (.bool true)
        else if varValue = "FUZZY" then ins (.bool false)
        else .crash s "[ERROR: IncompleteStatement]: BAULEAN requires FLUFFY/FUZZY" []
      else if varType = "MOE" then
        match parseNum varValue with
        | some n => ins (.num n)
        | none => .crash s "[ERROR: IncompleteStatement]: MOE requires number" []
      else .crash s ("Unknown type: " ++ varType) []
    else .next { s with pc := s.pc + 1 } []
  else if tok = "BAU" ∧ s.pc + 1 < s.tokens.length then
    if should then
      let token := s.tokens.getD (s.pc + 1) ""
      if startsCh token '$' then
        match lookupVar s.vars (dropFirst token) with
        | some v => .next { s with pc := s.pc + 2 } [renderValue v]
        | none => .crash s ("[ERROR: VanishValue]: Variable not found: " ++ token) []
      else if startsCh token '"' ∧ endsCh token '"' then
        if 2 ≤ strLen token then .next { s with pc := s.pc + 2 } [stripEnds token]
        else .crash s "slice out of range" []
      else .crash s "[ERROR: IncompleteStatement]: BAU requires quoted string or variable" []
    else .next { s with pc := s.pc + 2 } []
  else if tok = "CO" ∧ s.pc + 2 < s.tokens.length then
    if should then
      let varName := s.tokens.getD (s.pc + 1) ""
      let newValue := s.tokens.getD (s.pc + 2) ""
      let ins := fun (v : Value) =>
        MRes.next { s with vars := insertVar s.vars varName v, pc := s.pc + 3 } []
      match lookupVar s.vars varName with
      | some (.str _) =>
        if startsCh newValue '"' ∧ endsCh newValue '"' then
          if 2 ≤ strLen newValue then ins (.str (stripEnds newValue))
          else .crash s "slice out of range" []
        else .crash s "[ERROR: InvalidAssignment]" []
      | some (.bool _) =>
        if newValue = "FLUFFY" then ins (.bool true)
        else if newValue = "FUZZY" then ins (.bool false)
        else .crash s "[ERROR: IncompleteStatement]: Boolean assignment requires FLUFFY/FUZZY" []
      | some (.num _) =>
        match parseNum newValue with
        | some n => ins (.num n)
        | none => .crash s "[ERROR: IncompatibleType]: Number assignment requires numeric value" []
      | none => .crash s ("Undefined variable: " ++ varName) []
    else .next { s with pc := s.pc + 1 } []
  else if tok = "PONDE" ∧ s.pc + 1 < s.tokens.length then
    if should then
      let cntTok := s.tokens.getD (s.pc + 1) ""
      let iters : Except String Int :=
        if startsCh cntTok '$' then
          match lookupVar s.vars (dropFirst cntTok) with
          | some (.bool b) => .ok (if b then 1 else 0)
          | some (.num n) => .ok (f64ToI32 n)
          | _ => .error "[ERROR: IncompatibleType]: PONDE requires numeric/boolean value"
        else if cntTok = "FLUFFY" then .ok 1
        else if cntTok = "FUZZY" then .ok 0
        else match parseI32 cntTok with
          | some v => .ok v
          | none => .error "[ERROR: IncompleteStatement]: PONDE requires number/FLUFFY/FUZZY"
      match iters with
      | .error m => .crash s m []
      | .ok n =>
        let r := mainLoopIters s.tokens (s.pc + 2) n.toNat
        if r.2 then
          .next { s with pc := (findFrom s.tokens "ENDPONDE" (s.pc + 1)).getD s.tokens.length + 1 }
            r.1
        else .crash s "slice out of range" r.1
    else .next { s with pc := s.pc + 2 } []
  else if tok = "FUWA" ∧ s.pc + 2 < s.tokens.length then
    if s.tokens.getD (s.pc + 1) "" = ">" then
      .next { s with pc := s.pc + 3 }
        (if s.suppress then [] else ["Class: " ++ s.tokens.getD (s.pc + 2) ""])
    else .next { s with pc := s.pc + 2 } []
  else if tok = "MOCO" then
    .next { s with condStack := [], blockExecuted := false, pc := s.pc + 1 }
      (if s.suppress then [] else ["End class"])
  else if tok = "PE" ∧ s.pc + 1 < s.tokens.length then
    let ct := s.tokens.getD (s.pc + 1) ""
    let cond : Except String Bool :=
      if startsCh ct '$' then
        match lookupVar s.vars (dropFirst ct) with
        | some (.bool b) => .ok b
        | _ => .error "[ERROR: IncompatibleType]: PE requires a boolean variable"
      else if ct = "FLUFFY" then .ok true
      else if ct = "FUZZY" then .ok false
      else match evaluateVariable ct s.vars with
        | some (.bool b) => .ok b
        | _ => .error "[ERROR: IncompatibleType]: PE requires a boolean or BAULEAN variable"
    match cond with
    | .error m => .crash s m []
    | .ok c =>
      .next { s with condStack := s.condStack ++ [c], blockExecuted := c, pc := s.pc + 2 } []
  else if tok = "ROPE" ∧ s.pc + 1 < s.tokens.length then
    let stack1 := s.condStack.dropLast
    let ct := s.tokens.getD (s.pc + 1) ""
    let cond : Except String Bool :=
      if ct = "FLUFFY" then .ok true
      else if ct = "FUZZY" then .ok false
      else match evaluateVariable ct s.vars with
        | some (.bool b) => .ok b
        | _ => .error "[ERROR: IncompatibleType]: ROPE requires BAULEAN"
    match cond with
    | .error m => .crash { s with condStack := stack1 } m []
    | .ok c =>
      let shouldRun := !s.blockExecuted
      .next { s with condStack := stack1 ++ [c && shouldRun],
                     blockExecuted := s.blockExecuted || (c && shouldRun),
                     pc := s.pc + 2 } []
  else if tok = "RO" then
    .next { s with condStack := s.condStack.dropLast ++ [!s.blockExecuted],
                   blockExecuted := true, pc := s.pc + 1 } []
  else if tok = "NOEH" then
    .halt s ["Ended program with code NOEH"]
  else
    .next { s with pc := s.pc + 1 } (if should then ["[ERROR: Unknown token]: " ++ tok] else [])

/-- The `while pc < tokens.len()` dispatch loop of `main`. -/
def mainRunLoop : Nat → MState → MState × List String × RunStatus
  | 0, s => (s, [], .fuelOut)
  | fuel + 1, s =>
    if s.pc < s.tokens.length then
      match mainStep s with
      | .next s' d => let r := mainRunLoop fuel s'; (r.1, d ++ r.2.1, r.2.2)
      | .halt s' d => (s', d, .finished)
      | .crash s' _ d => (s', d, .crashed)
    else (s, [], .finished)

/-- The `main` dialect on a source text: lex, honour the leading
`CHIHUAHUA` flag (which both skips the token and enables class messages,
`src/main.rs` lines 56-59), dispatch. -/
def mainCore (code : String) (vars : Vars) : MState × List String × RunStatus :=
  let tokens := mainLex code
  let pc0 := if tokens.getD 0 "" = "CHIHUAHUA" then 1 else 0
  let sup := if tokens.getD 0 "" = "CHIHUAHUA" then false else true
  mainRunLoop (tokens.length + 1)
    { tokens := tokens, pc := pc0, vars := vars, condStack := [],
      blockExecuted := false, suppress := sup }

/-- Observable outcome of a `main`-dialect run (stdout modelled as the list
of printed lines). -/
def runMain (code : String) (vars : Vars) (buffer : List String) : RunOut :=
  let r := mainCore code vars
  { vars := r.1.vars, buffer := buffer ++ r.2.1, status := r.2.2 }

theorem shouldExec_concat (rest : List Bool) (b : Bool) : shouldExec (rest ++ [b]) = b := by
  simp [shouldExec]

theorem parseMantissa_quote (l : List Char) : parseMantissa ('"' :: l) = none := by
  unfold parseMantissa
  simp only [List.takeWhile_cons, List.all_cons]
  norm_num
  split <;> simp

theorem parseUnsigned_quote (cs : List Char) : parseUnsigned ('"' :: cs) = none := by
  unfold parseUnsigned
  simp only [List.takeWhile_cons]
  norm_num
  split <;> simp [parseMantissa_quote]

theorem parseNum_not_quote (lit : String) (h : (parseNum lit).isSome = true) :
    startsCh lit '"' = false := by
  unfold startsCh
  cases hd : lit.data with
  | nil => simp
  | cons c cs =>
    by_cases hc : c = '"'
    · subst hc
      exfalso
      unfold parseNum at h
      rw [hd] at h
      simp [parseUnsigned_quote] at h
    · simp [hd, hc]

theorem waStep_stack (s : IState) : stackOf (waStep s) = s.condStack := by
  unfold waStep
  dsimp only
  repeat' split <;> try rfl

theorem coStep_stack (s : IState) : stackOf (coStep s) = s.condStack := by
  unfold coStep
  dsimp only
  repeat' split <;> try rfl

theorem bauStep_stack (s : IState) : stackOf (bauStep s) = s.condStack := by
  unfold bauStep
  dsimp only
  repeat' split <;> try rfl

theorem pondeStep_stack (s : IState) : stackOf (pondeStep s) = s.condStack := by
  unfold pondeStep
  dsimp only
  repeat' split <;> try rfl

theorem interpStep_stack (s : IState) : stackOf (interpStep s) = s.condStack := by
  unfold interpStep
  dsimp only
  split
  · exact waStep_stack s
  split
  · exact coStep_stack s
  split
  · exact bauStep_stack s
  split
  · exact pondeStep_stack s
  · rfl

theorem interpRun_stack (fuel : Nat) (s : IState) :
    (interpRun fuel s).1.condStack = s.condStack := by
  induction fuel generalizing s with
  | zero => rfl
  | succ n ih =>
    unfold interpRun
    split
    · cases hstep : interpStep s with
      | next s' d =>
        have hst := interpStep_stack s
        rw [hstep] at hst
        simp only [stackOf] at hst
        simp [ih, hst]
      | halt s' d =>
        have hst := interpStep_stack s
        rw [hstep] at hst
        simp only [stackOf] at hst
        simp [hst]
      | crash s' d =>
        have hst := interpStep_stack s
        rw [hstep] at hst
        simp only [stackOf] at hst
        simp [hst]
    · rfl

theorem interpRun_step (fuel : Nat) (s s' : IState) (d : List String)
    (hpc : s.pc < s.tokens.length) (hstep : interpStep s = .next s' d) :
    interpRun (fuel + 1) s =
      ((interpRun fuel s').1, d ++ (interpRun fuel s').2.1, (interpRun fuel s').2.2) := by
  conv_lhs => rw [interpRun]
  rw [if_pos hpc, hstep]

theorem interpRun_done (fuel : Nat) (s : IState) (hpc : ¬ s.pc < s.tokens.length) :
    interpRun (fuel + 1) s = (s, [], .finished) := by
  conv_lhs => rw [interpRun]
  rw [if_neg hpc]

/-- A statement head the `run_interpreter` dispatch loop recognizes (token
plus its arity guard); everything else falls through silently. -/
def recognizedInterp (s : IState) : Prop :=
  (s.tokens.getD s.pc "" = "WA" ∧ s.pc + 4 < s.tokens.length) ∨
    (s.tokens.getD s.pc "" = "CO" ∧ s.pc + 3 < s.tokens.length) ∨
    (s.tokens.getD s.pc "" = "BAU" ∧ s.pc + 1 < s.tokens.length) ∨
    (s.tokens.getD s.pc "" = "PONDE" ∧ s.pc + 3 < s.tokens.length)

instance (s : IState) : Decidable (recognizedInterp s) := by
  unfold recognizedInterp
  infer_instance

theorem interpStep_fallthrough (s : IState) (h : ¬ recognizedInterp s) :
    interpStep s = .next { s with pc := s.pc + 1 } [] := by
  unfold recognizedInterp at h
  push_neg at h
  obtain ⟨h1, h2, h3, h4⟩ := h
  unfold interpStep
  dsimp only
  rw [if_neg, if_neg, if_neg, if_neg]
  · intro hc; exact absurd hc.2 (by intro hlt; exact absurd (h4 hc.1) (by omega))
  · intro hc; exact absurd hc.2 (by intro hlt; exact absurd (h3 hc.1) (by omega))
  · intro hc; exact absurd hc.2 (by intro hlt; exact absurd (h2 hc.1) (by omega))
  · intro hc; exact absurd hc.2 (by intro hlt; exact absurd (h1 hc.1) (by omega))

/-- Whether an optional binding currently holds a `Str` value. -/
def isStrBinding : Option Value → Bool
  | some (.str _) => true
  | _ => false

/-- FLUFFY/FUZZY surface literal for a boolean. -/
def boolTok (b : Bool) : String := cond b "FLUFFY" "FUZZY"

/-- Everything observable of a `run_interpreter` step except the condition
stack itself: outcome tag (continue/break/panic), program counter,
environment, and the appended records. -/
def iObs : IRes → Nat × Nat × Vars × List String
  | .next s d => (0, s.pc, s.vars, d)
  | .halt s d => (1, s.pc, s.vars, d)
  | .crash s d => (2, s.pc, s.vars, d)

/-- Everything observable of a `main` step except the condition stack
itself: outcome tag, program counter, environment, `block_executed`,
`suppress_class_messages`, panic message, and the printed records. -/
def mObs : MRes → Nat × Nat × Vars × Bool × Bool × String × List String
  | .next s d => (0, s.pc, s.vars, s.blockExecuted, s.suppress, "", d)
  | .halt s d => (1, s.pc, s.vars, s.blockExecuted, s.suppress, "", d)
  | .crash s m d => (2, s.pc, s.vars, s.blockExecuted, s.suppress, m, d)

theorem waStep_top (t : List String) (p : Nat) (v : Vars) (st1 st2 : List Bool)
    (h : shouldExec st1 = shouldExec st2) :
    iObs (waStep ⟨t, p, v, st1⟩) = iObs (waStep ⟨t, p, v, st2⟩) := by
  unfold waStep
  dsimp only
  rw [h]
  repeat' split <;> try rfl

theorem coStep_top (t : List String) (p : Nat) (v : Vars) (st1 st2 : List Bool)
    (h : shouldExec st1 = shouldExec st2) :
    iObs (coStep ⟨t, p, v, st1⟩) = iObs (coStep ⟨t, p, v, st2⟩) := by
  unfold coStep
  dsimp only
  rw [h]
  repeat' split <;> try rfl

theorem bauStep_top (t : List String) (p : Nat) (v : Vars) (st1 st2 : List Bool)
    (h : shouldExec st1 = shouldExec st2) :
    iObs (bauStep ⟨t, p, v, st1⟩) = iObs (bauStep ⟨t, p, v, st2⟩) := by
  unfold bauStep
  dsimp only
  rw [h]
  repeat' split <;> try rfl

theorem pondeStep_top (t : List String) (p : Nat) (v : Vars) (st1 st2 : List Bool)
    (h : shouldExec st1 = shouldExec st2) :
    iObs (pondeStep ⟨t, p, v, st1⟩) = iObs (pondeStep ⟨t, p, v, st2⟩) := by
  unfold pondeStep
  dsimp only
  rw [h]
  repeat' split <;> try rfl

theorem interpStep_top (t : List String) (p : Nat) (v : Vars) (st1 st2 : List Bool)
    (h : shouldExec st1 = shouldExec st2) :
    iObs (interpStep ⟨t, p, v, st1⟩) = iObs (interpStep ⟨t, p, v, st2⟩) := by
  unfold interpStep
  dsimp only
  by_cases c1 : t.getD p "" = "WA" ∧ p + 4 < t.length
  · simp only [if_pos c1]
    exact waStep_top t p v st1 st2 h
  simp only [if_neg c1]
  by_cases c2 : t.getD p "" = "CO" ∧ p + 3 < t.length
  · simp only [if_pos c2]
    exact coStep_top t p v st1 st2 h
  simp only [if_neg c2]
  by_cases c3 : t.getD p "" = "BAU" ∧ p + 1 < t.length
  · simp only [if_pos c3]
    exact bauStep_top t p v st1 st2 h
  simp only [if_neg c3]
  by_cases c4 : t.getD p "" = "PONDE" ∧ p + 3 < t.length
  · simp only [if_pos c4]
    exact pondeStep_top t p v st1 st2 h
  simp only [if_neg c4]
  rfl

set_option maxRecDepth 10000 in
theorem mainStep_top (t : List String) (p : Nat) (v : Vars) (be sp : Bool)
    (st1 st2 : List Bool) (h : shouldExec st1 = shouldExec st2) :
    mObs (mainStep ⟨t, p, v, st1, be, sp⟩) = mObs (mainStep ⟨t, p, v, st2, be, sp⟩) := by
  unfold mainStep
  dsimp only
  rw [h]
  by_cases c1 : t.getD p "" = "WA" ∧ p + 3 < t.length
  · simp only [if_pos c1]
    repeat' split <;> try rfl
  simp only [if_neg c1]
  by_cases c2 : t.getD p "" = "BAU" ∧ p + 1 < t.length
  · simp only [if_pos c2]
    repeat' split <;> try rfl
  simp only [if_neg c2]
  by_cases c3 : t.getD p "" = "CO" ∧ p + 2 < t.length
  · simp only [if_pos c3]
    repeat' split <;> try rfl
  simp only [if_neg c3]
  by_cases c4 : t.getD p "" = "PONDE" ∧ p + 1 < t.length
  · simp only [if_pos c4]
    repeat' split <;> try rfl
  simp only [if_neg c4]
  by_cases c5 : t.getD p "" = "FUWA" ∧ p + 2 < t.length
  · simp only [if_pos c5]
    repeat' split <;> try rfl
  simp only [if_neg c5]
  by_cases c6 : t.getD p "" = "MOCO"
  · simp only [if_pos c6]
    try rfl
  simp only [if_neg c6]
  by_cases c7 : t.getD p "" = "PE" ∧ p + 1 < t.length
  · simp only [if_pos c7]
    repeat' split <;> try rfl
  simp only [if_neg c7]
  by_cases c8 : t.getD p "" = "ROPE" ∧ p + 1 < t.length
  · simp only [if_pos c8]
    repeat' split <;> try rfl
  simp only [if_neg c8]
  by_cases c9 : t.getD p "" = "RO"
  · simp only [if_pos c9]
    try rfl
  simp only [if_neg c9]
  by_cases c10 : t.getD p "" = "NOEH"
  · simp only [if_pos c10]
    try rfl
  simp only [if_neg c10]
  split <;> rfl

set_option maxRecDepth 10000 in
/-- C1: in the recoverable dialect, the counted range loop
`PONDE n 1..3 \x7b BAU n \x7d` appends exactly the lines `1`, `2`, `3`
(both ends inclusive, increasing), and the reversed range `5..1` appends
nothing (the body is never entered). -/
theorem claim_c1 (out : List String) :
    (runInterpreter "PONDE n 1..3 \x7b BAU n \x7d" [] out).buffer = out ++ ["1", "2", "3"] ∧
    (runInterpreter "PONDE n 5..1 \x7b BAU n \x7d" [] out).buffer = out := by
  refine ⟨rfl, ?_⟩
  exact (congrArg (fun d => out ++ d)
    (by decide : (interpCore "PONDE n 5..1 \x7b BAU n \x7d" []).2.1 = ([] : List String))).trans
    (List.append_nil out)

set_option maxRecDepth 10000 in
/-- C2: in the abort-on-error dialect, a `PE c1 / ROPE c2 / RO` chain with
printing branches executes exactly one branch for every combination of the
two condition values, with the `PE` branch taking priority. -/
theorem claim_c2 (c1 c2 : Bool) (out : List String) :
    (runMain ("PE " ++ boolTok c1 ++ " BAU \"A\" ROPE " ++ boolTok c2 ++ " BAU \"B\" RO BAU \"C\"")
        [] out).buffer = out ++ [cond c1 "A" (cond c2 "B" "C")] ∧
    (runMain ("PE " ++ boolTok c1 ++ " BAU \"A\" ROPE " ++ boolTok c2 ++ " BAU \"B\" RO BAU \"C\"")
        [] out).status = .finished := by
  cases c1 <;> cases c2 <;> exact ⟨rfl, rfl⟩

set_option maxRecDepth 10000 in
/-- C7: in the recoverable dialect, declaring `WA MOE n = 3` and then
printing `BAU n` appends exactly one line, `3`, and the run finishes
normally. -/
theorem claim_c7 (out : List String) :
    (runInterpreter "WA MOE n = 3 BAU n" [] out).buffer = out ++ ["3"] ∧
    (runInterpreter "WA MOE n = 3 BAU n" [] out).status = .finished :=
  ⟨rfl, rfl⟩

/-- C3 counterexample: the claim fails for an environment that also binds
the literal's spelling to a Text value.  With `t ↦ Str "a"` and
`3 ↦ Str "b"`, the reassignment `CO t = 3` treats the numeric literal `3`
as a variable reference: no diagnostic is appended and `t` is rebound to
`Str "b"`. -/
theorem claim_c3_counterexample :
    (runInterpreter "CO t = 3" [("t", .str "a"), ("3", .str "b")] []).buffer = [] ∧
    (runInterpreter "CO t = 3" [("t", .str "a"), ("3", .str "b")] []).vars =
      [("t", .str "b"), ("3", .str "b")] ∧
    (runInterpreter "CO t = 3" [("t", .str "a"), ("3", .str "b")] []).status = .finished := by
  refine ⟨by decide, by decide, by decide⟩

/-- C3 (amended): reassigning a Text-bound variable to a numeric literal
appends one type-mismatch diagnostic, leaves the environment unchanged and
continues, provided the literal's spelling is not itself bound to a Text
value in the environment. -/
theorem claim_c3 (name lit s0 : String) (vars : Vars)
    (h1 : lookupVar vars name = some (.str s0))
    (h2 : (parseNum lit).isSome = true)
    (h3 : isStrBinding (lookupVar vars lit) = false) :
    interpRun 5 ⟨["CO", name, "=", lit], 0, vars, []⟩ =
      (⟨["CO", name, "=", lit], 4, vars, []⟩,
       ["[ERROR: IncompatibleType]: CO requires matching type (KIRA)"], .finished) := by
  have hq : startsCh lit '"' = false := parseNum_not_quote lit h2
  have step0 : interpStep ⟨["CO", name, "=", lit], 0, vars, []⟩ =
      .next ⟨["CO", name, "=", lit], 3, vars, []⟩
        ["[ERROR: IncompatibleType]: CO requires matching type (KIRA)"] := by
    rcases hlit : lookupVar vars lit with _ | v
    · simp [interpStep, coStep, shouldExec, h1, hq, hlit]
    · rcases v with b | t | q
      · simp [interpStep, coStep, shouldExec, h1, hq, hlit]
      · rw [hlit] at h3
        simp [isStrBinding] at h3
      · simp [interpStep, coStep, shouldExec, h1, hq, hlit]
  have step1 : interpStep ⟨["CO", name, "=", lit], 3, vars, []⟩ =
      .next ⟨["CO", name, "=", lit], 4, vars, []⟩ [] := by
    simp [interpStep]
  rw [interpRun_step 4 _ _ _ (by simp) step0, interpRun_step 3 _ _ _ (by simp) step1,
      interpRun_done 2 _ (by simp)]
  rfl

/-- C3 witness: the amended theorem at `t ↦ Str "a"`, statement `CO t = 3`. -/
theorem claim_c3_witness :
    interpRun 5 ⟨["CO", "t", "=", "3"], 0, [("t", .str "a")], []⟩ =
      (⟨["CO", "t", "=", "3"], 4, [("t", .str "a")], []⟩,
       ["[ERROR: IncompatibleType]: CO requires matching type (KIRA)"], .finished) :=
  claim_c3 "t" "3" "a" [("t", .str "a")] (by decide) (by decide) (by decide)

/-- C4 counterexample: a bare single operand that names a bound variable is
not a passthrough: `evaluate_arithmetic` parses the lone operand as a
number only, never consulting the environment, and fails with kind
`InvalidValue` (not `InvalidExpression`). -/
theorem claim_c4_counterexample :
    evaluateArithmetic "x" [("x", Value.num 5)] =
      .error "[ERROR: InvalidValue]: Invalid number/expression" ∧
    evaluateArithmetic "x" [("x", Value.num 5)] ≠ .ok 5 := by
  refine ⟨by decide, by decide⟩

/-- C4 (amended): a single whitespace-separated operand is accepted iff it
parses as a numeric literal (returning that number) and otherwise fails
with kind `InvalidValue`, the environment never being consulted; any
operand count other than one or three fails with kind
`InvalidExpression`. -/
theorem claim_c4 (expr : String) (vars : Vars) :
    ((splitWs expr).length = 1 →
      evaluateArithmetic expr vars =
        (match parseNum ((splitWs expr).getD 0 "") with
         | some n => Except.ok n
         | none => Except.error "[ERROR: InvalidValue]: Invalid number/expression")) ∧
    ((splitWs expr).length ≠ 1 → (splitWs expr).length ≠ 3 →
      evaluateArithmetic expr vars =
        Except.error "[ERROR: InvalidExpression]: Expecting 'value operator value'") := by
  constructor
  · intro h1
    have h3 : (splitWs expr).length ≠ 3 := by omega
    simp only [evaluateArithmetic]
    rw [if_pos h3, if_pos h1]
  · intro h1 h3
    simp only [evaluateArithmetic]
    rw [if_pos h3, if_neg h1]

/-- C4 witness: the amended theorem at the literal `5` (one operand) and at
`a b` (two operands). -/
theorem claim_c4_witness :
    evaluateArithmetic "5" [] = .ok 5 ∧
    evaluateArithmetic "a b" [] =
      .error "[ERROR: InvalidExpression]: Expecting 'value operator value'" := by
  constructor
  · exact ((claim_c4 "5" []).1 (by decide)).trans (by decide)
  · exact (claim_c4 "a b" []).2 (by decide) (by decide)

/-- C5 counterexample: in the abort-on-error dialect's count form, a
missing `ENDPONDE` marker is not diagnosed at all: `PONDE 2 BAU "A"` with
no end marker executes the body twice (printing `A` twice), emits no
diagnostic line, and returns normally. -/
theorem claim_c5_counterexample :
    (runMain "PONDE 2 BAU \"A\"" [] []).buffer = ["A", "A"] ∧
    (runMain "PONDE 2 BAU \"A\"" [] []).status = .finished ∧
    (∀ l ∈ (runMain "PONDE 2 BAU \"A\"" [] []).buffer, startsCh l '[' = false) := by
  refine ⟨by decide, by decide, by decide⟩

set_option maxRecDepth 10000 in
/-- C5 (amended, range form): in the recoverable dialect, a range loop with
no closing brace appends a `Syntax` diagnostic and executes zero
iterations — the induction variable is never bound — after which dispatch
resumes at the body tokens (here printing an unbound-variable diagnostic
for `n`). -/
theorem claim_c5 (out : List String) :
    (runInterpreter "PONDE n 1..3 \x7b BAU n" [] out).buffer =
      out ++ ["[ERROR: Syntax]: Could not find closing '\x7d' for loop",
              "[ERROR: VanishValue]: Variable couldn't be found: n"] ∧
    (runInterpreter "PONDE n 1..3 \x7b BAU n" [] out).vars = [] ∧
    (runInterpreter "PONDE n 1..3 \x7b BAU n" [] out).status = .finished :=
  ⟨rfl, rfl, rfl⟩

/-- C6 counterexample: not every failure is reported and the evaluator can
abort.  The incomplete declaration `WA MOE n` (an `incomplete statement`
failure in the spec's own error taxonomy) appends no diagnostic at all,
and printing a lone double-quote token panics (`&token[1..0]` is out of
range), so `run_interpreter` does not return normally. -/
theorem claim_c6_counterexample :
    (runInterpreter "WA MOE n" [] []).buffer = [] ∧
    (runInterpreter "WA MOE n" [] []).status = .finished ∧
    (runInterpreter "BAU \"" [] []).status = .crashed := by
  refine ⟨by decide, by decide, by decide⟩

/-- C6 (amended): in the recoverable dialect failure reporting is partial
and the run does not always continue or return normally: a statement whose
leading token is not a recognized form with its minimum following tokens
is skipped silently — no diagnostic, a one-token advance — so unknown
tokens and incomplete statements are errors that are dropped; printing a
lone double-quote token panics on an out-of-range slice instead of
returning; a declaration or reassignment with a wrong token in place of
`=` appends its Syntax diagnostic and then stops the dispatch loop, so
following statements never execute (though the call itself returns); and
an unknown declared type is reported with the untagged line
`Unknown type: ...`. -/
theorem claim_c6 (s : IState) (h : ¬ recognizedInterp s) :
    interpStep s = .next { s with pc := s.pc + 1 } [] ∧
    (runInterpreter "BAU \"" [] []).status = .crashed ∧
    (runInterpreter "WA MOE n x 3 BAU \"hi\"" [] []).buffer =
      ["[ERROR: Syntax]: Expected '=' after variable name"] ∧
    (runInterpreter "WA MOE n x 3 BAU \"hi\"" [] []).status = .finished ∧
    (runInterpreter "CO x y 3 BAU \"hi\"" [] []).buffer =
      ["[ERROR: Syntax]: Expected '=' in reassingment"] ∧
    (runInterpreter "WA FOO n = 1" [] []).buffer = ["Unknown type: FOO"] :=
  ⟨interpStep_fallthrough s h, by decide, by decide, by decide, by decide, by decide⟩

/-- C6 witness: the amended theorem at the incomplete declaration
`WA MOE n`, which is skipped silently. -/
theorem claim_c6_witness :
    interpStep ⟨["WA", "MOE", "n"], 0, [], []⟩ = .next ⟨["WA", "MOE", "n"], 1, [], []⟩ [] ∧
    (runInterpreter "BAU \"" [] []).status = .crashed ∧
    (runInterpreter "WA MOE n x 3 BAU \"hi\"" [] []).buffer =
      ["[ERROR: Syntax]: Expected '=' after variable name"] ∧
    (runInterpreter "WA MOE n x 3 BAU \"hi\"" [] []).status = .finished ∧
    (runInterpreter "CO x y 3 BAU \"hi\"" [] []).buffer =
      ["[ERROR: Syntax]: Expected '=' in reassingment"] ∧
    (runInterpreter "WA FOO n = 1" [] []).buffer = ["Unknown type: FOO"] :=
  claim_c6 ⟨["WA", "MOE", "n"], 0, [], []⟩ (by decide)

/-- C8: in the recoverable dialect, printing an unbound name appends exactly
one `VanishValue` diagnostic, leaves the environment unchanged, does not
terminate the run, and the following statement still executes (here a
second print that appends `hi`). -/
theorem claim_c8 (name : String) (vars : Vars) (h1 : lookupVar vars name = none)
    (h2 : ¬(startsCh name '"' = true ∧ endsCh name '"' = true)) :
    interpRun 5 ⟨["BAU", name, "BAU", "\"hi\""], 0, vars, []⟩ =
      (⟨["BAU", name, "BAU", "\"hi\""], 4, vars, []⟩,
       ["[ERROR: VanishValue]: Variable couldn't be found: " ++ name, "hi"], .finished) := by
  have q1 : startsCh "\"hi\"" '"' = true := by decide
  have q2 : endsCh "\"hi\"" '"' = true := by decide
  have q3 : 2 ≤ strLen "\"hi\"" := by decide
  have q4 : stripEnds "\"hi\"" = "hi" := by decide
  have step0 : interpStep ⟨["BAU", name, "BAU", "\"hi\""], 0, vars, []⟩ =
      .next ⟨["BAU", name, "BAU", "\"hi\""], 2, vars, []⟩
        ["[ERROR: VanishValue]: Variable couldn't be found: " ++ name] := by
    simp [interpStep, bauStep, shouldExec, h1, h2]
  have step1 : interpStep ⟨["BAU", name, "BAU", "\"hi\""], 2, vars, []⟩ =
      .next ⟨["BAU", name, "BAU", "\"hi\""], 4, vars, []⟩ ["hi"] := by
    simp [interpStep, bauStep, shouldExec, q1, q2, q3, q4]
  rw [interpRun_step 4 _ _ _ (by simp) step0, interpRun_step 3 _ _ _ (by simp) step1,
      interpRun_done 2 _ (by simp)]
  rfl

/-- C8 witness: the unbound name `q` with an empty environment. -/
theorem claim_c8_witness :
    interpRun 5 ⟨["BAU", "q", "BAU", "\"hi\""], 0, [], []⟩ =
      (⟨["BAU", "q", "BAU", "\"hi\""], 4, [], []⟩,
       ["[ERROR: VanishValue]: Variable couldn't be found: q", "hi"], .finished) :=
  claim_c8 "q" [] (by decide) (by decide)

/-- C9 counterexample: execution is not decided solely by the condition
stack top — the abort dialect's `NOEH` arm never consults it: with a false
top of stack (`should_execute` false) `NOEH` still prints the termination
record and ends the program, both at the step level and in the full run
`PE FUZZY NOEH`. -/
theorem claim_c9_counterexample :
    shouldExec [false] = false ∧
    mainStep ⟨["NOEH"], 0, [], [false], false, true⟩ =
      .halt ⟨["NOEH"], 0, [], [false], false, true⟩ ["Ended program with code NOEH"] ∧
    (runMain "PE FUZZY NOEH" [] []).buffer = ["Ended program with code NOEH"] := by
  refine ⟨by decide, by decide, by decide⟩

/-- C9 (amended): condition-stack entries below the top are never
consulted: in both dialects, any two stacks with the same top produce the
same step behavior apart from the stack itself (same outcome, counter,
environment, flags and appended records), and an inner true condition
enables a print even when every enclosing level is false.  But only the
gated statements are decided by the top at all: the abort dialect's
chain-control and terminate arms ignore it — `NOEH` prints and terminates
even under a false top over any deeper stack. -/
theorem claim_c9 :
    (∀ (t : List String) (p : Nat) (v : Vars) (st1 st2 : List Bool),
      shouldExec st1 = shouldExec st2 →
      iObs (interpStep ⟨t, p, v, st1⟩) = iObs (interpStep ⟨t, p, v, st2⟩)) ∧
    (∀ (t : List String) (p : Nat) (v : Vars) (be sp : Bool) (st1 st2 : List Bool),
      shouldExec st1 = shouldExec st2 →
      mObs (mainStep ⟨t, p, v, st1, be, sp⟩) = mObs (mainStep ⟨t, p, v, st2, be, sp⟩)) ∧
    (∀ (rest : List Bool) (b : Bool) (vars : Vars) (be sp : Bool),
      interpStep ⟨["BAU", "\"A\""], 0, vars, rest ++ [b]⟩ =
        .next ⟨["BAU", "\"A\""], 2, vars, rest ++ [b]⟩ (cond b ["A"] []) ∧
      mainStep ⟨["BAU", "\"A\""], 0, vars, rest ++ [b], be, sp⟩ =
        .next ⟨["BAU", "\"A\""], 2, vars, rest ++ [b], be, sp⟩ (cond b ["A"] [])) ∧
    (∀ (rest : List Bool) (v : Vars) (be sp : Bool),
      mainStep ⟨["NOEH"], 0, v, rest ++ [false], be, sp⟩ =
        .halt ⟨["NOEH"], 0, v, rest ++ [false], be, sp⟩ ["Ended program with code NOEH"]) := by
  refine ⟨interpStep_top, mainStep_top, fun rest b vars be sp => ?_, fun rest v be sp => ?_⟩
  · have hs := shouldExec_concat rest b
    have q1 : startsCh "\"A\"" '"' = true := by decide
    have q2 : endsCh "\"A\"" '"' = true := by decide
    have q3 : 2 ≤ strLen "\"A\"" := by decide
    have q4 : stripEnds "\"A\"" = "A" := by decide
    have q5 : startsCh "\"A\"" '$' = false := by decide
    exact (by cases b <;> constructor <;>
      simp [interpStep, bauStep, mainStep, hs, q1, q2, q3, q4, q5])
  · simp [mainStep]

/-- C9 witness: the amended theorem at the stacks `[false, true]` and
`[true]` (same top, different depth) on a print statement. -/
theorem claim_c9_witness :
    iObs (interpStep ⟨["BAU", "\"A\""], 0, [], [false, true]⟩) =
      iObs (interpStep ⟨["BAU", "\"A\""], 0, [], [true]⟩) ∧
    mObs (mainStep ⟨["BAU", "\"A\""], 0, [], [false, true], false, true⟩) =
      mObs (mainStep ⟨["BAU", "\"A\""], 0, [], [true], false, true⟩) :=
  ⟨claim_c9.1 ["BAU", "\"A\""] 0 [] [false, true] [true] (by decide),
   claim_c9.2.1 ["BAU", "\"A\""] 0 [] false true [false, true] [true] (by decide)⟩

/-- C10: in the recoverable dialect the condition stack starts empty and no
step ever changes it, so it is empty for the whole run and `should_execute`
is `true` at every step; the conditional-chain keywords `PE`, `ROPE`, `RO`
have no handler in `run_interpreter` and are skipped as unknown tokens. -/
theorem claim_c10 :
    (∀ (code : String) (vars : Vars), (interpCore code vars).1.condStack = []) ∧
    (∀ s : IState, stackOf (interpStep s) = s.condStack) ∧
    shouldExec [] = true ∧
    (∀ vars : Vars,
      interpStep ⟨["PE", "FLUFFY"], 0, vars, []⟩ = .next ⟨["PE", "FLUFFY"], 1, vars, []⟩ [] ∧
      interpStep ⟨["ROPE", "FLUFFY"], 0, vars, []⟩ = .next ⟨["ROPE", "FLUFFY"], 1, vars, []⟩ [] ∧
      interpStep ⟨["RO"], 0, vars, []⟩ = .next ⟨["RO"], 1, vars, []⟩ []) := by
  refine ⟨fun code vars => ?_, interpStep_stack, rfl, fun vars => ⟨?_, ?_, ?_⟩⟩
  · exact interpRun_stack _ _
  · exact interpStep_fallthrough _ (by simp [recognizedInterp])
  · exact interpStep_fallthrough _ (by simp [recognizedInterp])
  · exact interpStep_fallthrough _ (by simp [recognizedInterp])
